import Mathlib

/-!
Verification of the JapaneseStudy quiz engine (a terminal flashcard/quiz
application).  This file gives a shallow embedding of the data model and the
operations of `quiz_manager.py`, `mistake_tracker.py`, `progress_manager.py`
and `data_loader.py`, and proves (or refutes) the specified properties.

Modelling conventions:
* Python string-keyed dict rows (CSV records) are association lists
  (`Row`); `dget` models `row[key]`, total with `""` where Python would raise
  `KeyError` (every access in the embedded code paths is to a present key).
* `random.shuffle` is modelled by an oracle function applied at the exact
  program point where Python shuffles; theorems that depend on it assume the
  oracle permutes its input.
* `random.sample(pool, k)` is modelled by `python_sample`: it returns
  `Except.error` exactly when `k` exceeds the population size, which is the
  `ValueError` CPython raises there.
* Interactive input (`get_user_choice`, already validated to the letters the
  prompt accepts) is modelled as a list of actions consumed by the session
  loop; running out of modelled input yields `none` (Python would block).
* The persisted stores (mistake file, progress file) are passed and returned
  explicitly: a function that in Python reads the file, mutates, and rewrites
  it becomes a function from store state to store state.
-/

namespace JapaneseStudy

/-- A CSV record / Python dict of strings, as an association list. -/
abbrev Row : Type := List (String × String)

/-- Field access `row[key]`: value of the first matching key, `""` when the
key is absent (Python raises `KeyError`; none of the embedded accesses can
miss on well-formed rows). -/
def dget (row : Row) (key : String) : String :=
  match row.find? (fun p => p.1 == key) with
  | some p => p.2
  | none => ""

/-- The `option_type` field selector set in the branches of
`generate_question` (quiz_manager.py lines 57-68). -/
def optionType (quiz_type : String) : String :=
  if quiz_type = "jlpt" then "Meaning"
  else if quiz_type = "character" then "Correct Answer"
  else ""

/-- The `correct_answer` value set in the branches of `generate_question`
(quiz_manager.py lines 57-68). -/
def correctAnswer (correct_content : Row) (quiz_type : String) : String :=
  if quiz_type = "jlpt" then dget correct_content "Meaning"
  else if quiz_type = "character" then dget correct_content "Correct Answer"
  else ""

/-- The `question_prompt` value set in the branches of `generate_question`
(quiz_manager.py lines 57-68). -/
def questionPrompt (correct_content : Row) (quiz_type : String) : String :=
  if quiz_type = "jlpt" then
    dget correct_content "Kana" ++ " (" ++ dget correct_content "Kanji" ++ ")"
  else if quiz_type = "character" then dget correct_content "Character"
  else ""

/-- The `wrong_options` accumulation loop of `generate_question`
(quiz_manager.py lines 74-77): the answer-field value of every pool entry
whose answer-field value differs from the correct answer, in pool order,
duplicates kept. -/
def wrongOptions (all_content : List Row) (option_type correct_answer : String) :
    List String :=
  (all_content.filter (fun c => dget c option_type != correct_answer)).map
    (fun c => dget c option_type)

/-- `l[-3:]` in Python: the last three elements (all of them when there are
fewer than three). -/
def lastThree (l : List String) : List String :=
  l.drop (l.length - 3)

/-- `generate_question` (quiz_manager.py lines 39-86).  `s1` is the
`random.shuffle` applied to `wrong_options` (line 80), `s2` the one applied
to the final options list (line 84). -/
def generate_question (correct_content : Row) (all_content : List Row)
    (quiz_type : String) (s1 s2 : List String → List String) :
    String × List String :=
  let correct_answer := correctAnswer correct_content quiz_type
  let option_type := optionType quiz_type
  let wrong_options := wrongOptions all_content option_type correct_answer
  let shuffled := s1 wrong_options
  let options := [correct_answer] ++ lastThree shuffled
  (questionPrompt correct_content quiz_type, s2 options)

/-- `get_correct_answer_index` (quiz_manager.py lines 89-100):
`options.index(correct_answer)`, the first-match index.  Python raises
`ValueError` when the element is absent; `List.findIdx` returns the length
there, which no embedded call path reaches. -/
def get_correct_answer_index (options : List String) (correct_answer : String) : Nat :=
  options.findIdx (fun o => o == correct_answer)

/-- A sample JLPT vocabulary row. -/
def vocabRow (kanji kana meaning : String) : Row :=
  [("Kanji", kanji), ("Kana", kana), ("Meaning", meaning)]

/-- One row of the mistake store `data/mistakes.csv`
(mistake_tracker.py, header at line 110).  Session-local mistake entries
(`MistakeReview` in quiz_manager.py) carry only the first four fields; the
embedding reuses this record with `mistake_count`/`last_mistake_date`
placeholders, which no session code ever reads. -/
structure MistakeRec where
  word : String
  kana : String
  correct_answer : String
  user_answer : String
  mistake_count : Nat
  last_mistake_date : String
deriving DecidableEq

/-- Placeholder record, used only as the default of total list indexing. -/
def emptyMistake : MistakeRec := ⟨"", "", "", "", 0, ""⟩

/-- A session-local mistake entry as built by `run_jlpt_quiz`
(quiz_manager.py lines 320-325): just the four observable fields. -/
def mkSessionMistake (word kana correct_answer user_answer : String) : MistakeRec :=
  ⟨word, kana, correct_answer, user_answer, 0, ""⟩

/-- The update loop of `add_mistake` (mistake_tracker.py lines 88-96): walk
the store, bump the first record matching the `(word, kana)` key (overwrite
answers and date, `mistake_count += 1`) and stop there. -/
def update_first (word kana correct_answer user_answer now : String) :
    List MistakeRec → List MistakeRec
  | [] => []
  | m :: rest =>
    if m.word = word ∧ m.kana = kana then
      { m with correct_answer := correct_answer, user_answer := user_answer,
               mistake_count := m.mistake_count + 1, last_mistake_date := now } :: rest
    else m :: update_first word kana correct_answer user_answer now rest

/-- The `mistake_updated` flag of `add_mistake`: whether some record matches
the `(word, kana)` key. -/
def mistake_exists (word kana : String) (store : List MistakeRec) : Bool :=
  store.any (fun m => m.word == word && m.kana == kana)

/-- `add_mistake` (mistake_tracker.py lines 74-112) as a store-state
transformer; `now` stands for `datetime.now().strftime(...)`.  If a record
with the `(word, kana)` key exists the first one is updated in place,
otherwise a fresh record with `mistake_count = 1` is appended. -/
def add_mistake (store : List MistakeRec) (word kana correct_answer user_answer now : String) :
    List MistakeRec :=
  if mistake_exists word kana store then
    update_first word kana correct_answer user_answer now store
  else store ++ [⟨word, kana, correct_answer, user_answer, 1, now⟩]

/-- The filtering loop of `remove_mistake` (mistake_tracker.py lines
129-132): keep exactly the records whose `word` differs from the argument
(the `kana` field is never consulted). -/
def removeLoop (word : String) : List MistakeRec → List MistakeRec
  | [] => []
  | m :: rest =>
    if m.word != word then m :: removeLoop word rest else removeLoop word rest

/-- `remove_mistake` (mistake_tracker.py lines 115-140) as a store-state
transformer returning the new store and the reported Boolean.  The source
computes `old_mistake_count = len(user_mistakes)` and then returns
`len(user_mistakes) < old_mistake_count` — it compares the unfiltered list's
length with itself. -/
def remove_mistake (user_mistakes : List MistakeRec) (word : String) :
    List MistakeRec × Bool :=
  let old_mistake_count := user_mistakes.length
  let filtered_mistakes := removeLoop word user_mistakes
  (filtered_mistakes, decide (user_mistakes.length < old_mistake_count))

/-- `reset_mistakes` (mistake_tracker.py lines 143-160): the store after a
reset is header-only, i.e. empty. -/
def reset_mistakes : List MistakeRec := []

/-- A `for mistake in ...: add_mistake(...)` loop over a list of session
mistake entries, as run by `run_mistake_practice` (quiz_manager.py lines
239-245) and `run_jlpt_quiz` (lines 349-355, 361-369, 377-383). -/
def addAll (store : List MistakeRec) (entries : List MistakeRec) (now : String) :
    List MistakeRec :=
  entries.foldl
    (fun s m => add_mistake s m.word m.kana m.correct_answer m.user_answer now) store

/-- Key equality of two mistake records, the `(word, kana)` composite. -/
def keyMatches (a b : MistakeRec) : Bool :=
  a.word == b.word && a.kana == b.kana

/-- Mastery mapping from JLPT level to the set of mastered kanji
(progress_manager.py).  `load_mastered_vocabs` always materialises the five
level keys, so the embedding uses a total map from level strings to finite
sets. -/
abbrev Mastery := String → Finset String

/-- `add_mastered_vocab` (progress_manager.py lines 65-90) as a state
transformer on the mastery mapping, with the reported Boolean: when the
kanji is already in the level's mastered set the function returns `False`
without writing; otherwise the kanji is added to that level's set and the
whole mapping rewritten, returning `True`. -/
def add_mastered_vocab (mastery : Mastery) (level kanji : String) : Mastery × Bool :=
  if kanji ∈ mastery level then (mastery, false)
  else ((fun l => if l = level then insert kanji (mastery l) else mastery l), true)

/-- `random.sample(population, k)` (quiz_manager.py lines 264 and 396):
CPython raises `ValueError` when `k` exceeds the population size, modelled
as `Except.error`; otherwise the sample is chosen by the oracle `pick`. -/
def python_sample (pick : List Row → List Row) (population : List Row) (k : Nat) :
    Except String (List Row) :=
  if k ≤ population.length then Except.ok (pick population)
  else Except.error "ValueError: Sample larger than population or is negative"

/-- The initialization of `run_jlpt_quiz` (quiz_manager.py lines 260-264):
sample 10 vocabularies from the loaded pool.  The source has no size guard
before `random.sample` and no `try/except` in `run_jlpt_quiz` or `main`, so
an `Except.error` here is an uncaught fault of the whole session. -/
def run_jlpt_quiz_init (pick : List Row → List Row) (all_vocabs : List Row) :
    Except String (List Row) :=
  python_sample pick all_vocabs 10

/-- The initialization of `run_character_quiz` (quiz_manager.py lines
392-396), identically unguarded. -/
def run_character_quiz_init (pick : List Row → List Row) (all_characters : List Row) :
    Except String (List Row) :=
  python_sample pick all_characters 10

/-- Projection of the `run_jlpt_quiz` question loop (quiz_manager.py lines
272-275) to the question generated at each index: question `i` is built by
`generate_question(content, quiz_content, 'jlpt')`, so the distractor pool
is the session's own 10-item sample `quiz_content`.  `s1 i` and `s2 i` are
the shuffle oracles of the `i`-th generation. -/
def jlpt_quiz_questions (quiz_content : List Row)
    (s1 s2 : Nat → List String → List String) : List (String × List String) :=
  (List.range quiz_content.length).map fun i =>
    generate_question (quiz_content.getD i []) quiz_content "jlpt" (s1 i) (s2 i)

/-- Projection of the `run_character_quiz` question loop (quiz_manager.py
lines 403-406): question `i` is built by
`generate_question(content, quiz_content, 'character')`, so the distractor
pool is again the session's own 10-item sample `quiz_content`, not the full
character pool loaded at line 393. -/
def character_quiz_questions (quiz_content : List Row)
    (s1 s2 : Nat → List String → List String) : List (String × List String) :=
  (List.range quiz_content.length).map fun i =>
    generate_question (quiz_content.getD i []) quiz_content "character" (s1 i) (s2 i)

/-- One validated user input to the review loop (`get_user_choice` only
returns letters the prompt accepts): an answer A-D, or Q together with the
subsequent Y/N confirmation. -/
inductive ReviewAction where
  | answer (choice : Fin 4)
  | quit (confirmed : Bool)
deriving DecidableEq

/-- The `while` loop of `run_mistake_review` (quiz_manager.py lines
129-208), for the `jlpt` quiz type — the only value either caller passes
(lines 230 and 343; the `character` branch would read a `'Correct Answer'`
key that mistake entries never carry).  State: `q_no`, `cleared_mistakes`,
`remaining_mistakes`, a counter `t` indexing the shuffle oracles of
successive iterations, and the stream of validated user inputs; exhausting
the modelled input is `none` (Python would block on `input`).  A confirmed
quit returns the remaining list extended with `mistakes_list[q_no:]` and
the `user_quit_early` flag set; a cancelled quit repeats the same question;
otherwise the answer is compared against `get_correct_answer_index` and the
loop ends at `q_no = len` with the flag `false`.  The option list Python
rebuilds on every iteration (lines 143-156) is consulted only when an
answer letter was entered, so the embedding computes it in that case. -/
def review_loop (all_content : List Row) (s1 s2 : Nat → List String → List String)
    (mistakes_list : List MistakeRec) :
    Nat → Nat → List MistakeRec → Nat → List ReviewAction →
    Option (Nat × List MistakeRec × Bool)
  | q_no, cleared, remaining, _, [] =>
    if q_no < mistakes_list.length then none else some (cleared, remaining, false)
  | q_no, cleared, remaining, _, ReviewAction.quit true :: _ =>
    if q_no < mistakes_list.length then
      some (cleared, remaining ++ mistakes_list.drop q_no, true)
    else some (cleared, remaining, false)
  | q_no, cleared, remaining, t, ReviewAction.quit false :: acts =>
    if q_no < mistakes_list.length then
      review_loop all_content s1 s2 mistakes_list q_no cleared remaining (t + 1) acts
    else some (cleared, remaining, false)
  | q_no, cleared, remaining, t, ReviewAction.answer choice :: acts =>
    if q_no < mistakes_list.length then
      let mistake := mistakes_list.getD q_no emptyMistake
      let correct_answer := mistake.correct_answer
      let options := s2 t ([correct_answer]
        ++ lastThree (s1 t (wrongOptions all_content "Meaning" correct_answer)))
      if (choice : Nat) = get_correct_answer_index options correct_answer then
        review_loop all_content s1 s2 mistakes_list (q_no + 1) (cleared + 1)
          remaining (t + 1) acts
      else
        review_loop all_content s1 s2 mistakes_list (q_no + 1) cleared
          (remaining ++ [mistake]) (t + 1) acts
    else some (cleared, remaining, false)

/-- Whether a review input is an answer (these advance `q_no`) rather than
a quit signal. -/
def ReviewAction.isAnswer : ReviewAction → Bool
  | ReviewAction.answer _ => true
  | ReviewAction.quit _ => false

/-- `run_mistake_review` (quiz_manager.py lines 103-208): shuffle the
mistake list once (`shuffle0`, line 123), then run the loop from the
initial state. -/
def run_mistake_review (all_content : List Row)
    (shuffle0 : List MistakeRec → List MistakeRec)
    (s1 s2 : Nat → List String → List String) (mistakes_list : List MistakeRec)
    (acts : List ReviewAction) : Option (Nat × List MistakeRec × Bool) :=
  review_loop all_content s1 s2 (shuffle0 mistakes_list) 0 0 [] 0 acts

/-- The persistence step of `run_mistake_practice` when the review did not
end in an early quit (quiz_manager.py lines 236-245): `reset_mistakes()`
clears the store, then every remaining mistake is re-added through
`add_mistake`. -/
def run_mistake_practice_save (remaining : List MistakeRec) (now : String) :
    List MistakeRec :=
  addAll reset_mistakes remaining now

/-- The mistake-persistence step at the end of `run_jlpt_quiz`
(quiz_manager.py lines 334-383), as a function of the collected session
`mistakes`, whether the user accepted the inline review, and — when they
did — the review's `updated_mistakes` and `user_quit_early` outputs.  With
no mistakes nothing is written; on early quit the code upserts every
collected mistake (lines 349-355); on a normal review end it upserts only
the updated (remaining) ones (lines 361-369); declining the review upserts
every collected mistake (lines 377-383). -/
def jlpt_post_quiz_mistake_persist (store : List MistakeRec)
    (mistakes : List MistakeRec) (review_accepted : Bool)
    (updated_mistakes : List MistakeRec) (user_quit_early : Bool) (now : String) :
    List MistakeRec :=
  if mistakes = [] then store
  else if review_accepted then
    if user_quit_early then addAll store mistakes now
    else addAll store updated_mistakes now
  else addAll store mistakes now

/-- `load_jlpt_vocab` (data_loader.py lines 42-64).  The `file` argument is
the parsed content of the level's CSV, or `none` when the file is absent.
An unknown level returns the documented empty list; a missing file prints a
notice and falls off the end of the function, i.e. returns Python `None`,
modelled as `none`. -/
def load_jlpt_vocab (level : String) (file : Option (List Row)) : Option (List Row) :=
  if level ∉ ["N5", "N4", "N3", "N2", "N1"] then some []
  else
    match file with
    | some rows => some rows
    | none => none

/-- `load_characters` (data_loader.py lines 67-84): a missing file prints a
notice and returns Python `None`. -/
def load_characters (file : Option (List Row)) : Option (List Row) :=
  match file with
  | some rows => some rows
  | none => none

/-- `load_mistakes` (mistake_tracker.py lines 37-61) paired with whether it
wrote a default store file.  On a missing file it prints a notice and falls
through, returning Python `None`; creating a default file there is an
unimplemented `TODO` in the source, so the second component is `false` on
every path. -/
def load_mistakes (file : Option (List MistakeRec)) :
    Option (List MistakeRec) × Bool :=
  match file with
  | some rows => (some rows, false)
  | none => (none, false)

/-- `get_mistake_count` (mistake_tracker.py lines 64-71):
`len(load_mistakes())`.  When the load produced `None`, `len(None)` raises
`TypeError`, modelled as `none`. -/
def get_mistake_count (file : Option (List MistakeRec)) : Option Nat :=
  ((load_mistakes file).1).map List.length

/-- The row-parsing loop of `load_mastered_vocabs` (progress_manager.py
lines 49-58): rows with fewer than two cells are skipped; otherwise the
first cell names the level and every later cell that is non-blank after
stripping is added to that level's set. -/
def masteryOfRows (rows : List (List String)) : Mastery :=
  rows.foldl
    (fun mastery line =>
      if 2 ≤ line.length then
        (line.drop 1).foldl
          (fun m v =>
            if v.trim ≠ "" then
              (fun l => if l = line.headD "" then insert v (m l) else m l)
            else m)
          mastery
      else mastery)
    (fun _ => ∅)

/-- `load_mastered_vocabs` (progress_manager.py lines 33-62) paired with
whether it wrote a default progress file: a missing file triggers
`create_progress_file()` and the empty five-level mastery is returned. -/
def load_mastered_vocabs (file : Option (List (List String))) : Mastery × Bool :=
  match file with
  | some rows => (masteryOfRows rows, false)
  | none => ((fun _ => ∅), true)

/-- A sample character row. -/
def charRow (character correct : String) : Row :=
  [("Character", character), ("Correct Answer", correct)]

/-- An 11-entry character pool with pairwise distinct readings. -/
def fullCharacterPool : List Row :=
  [charRow "あ" "a", charRow "い" "i", charRow "う" "u", charRow "え" "e",
   charRow "お" "o", charRow "か" "ka", charRow "き" "ki", charRow "く" "ku",
   charRow "け" "ke", charRow "こ" "ko", charRow "さ" "sa"]

/-- A 10-item sample drawn from `fullCharacterPool`, as `random.sample`
could return it. -/
def sampleCharacterPool : List Row :=
  fullCharacterPool.take 10

/-- A stored mistake with `mistake_count = 2`. -/
def catRec : MistakeRec := ⟨"猫", "ねこ", "cat", "dog", 2, "d0"⟩

/-- A stored mistake with `mistake_count = 5` and a key distinct from
`catRec`. -/
def birdRec : MistakeRec := ⟨"鳥", "とり", "bird", "fish", 5, "d1"⟩

/-- A session mistake collected during a quiz. -/
def sessionM1 : MistakeRec := mkSessionMistake "一" "いち" "one" "two"

/-- A second session mistake with a distinct key. -/
def sessionM2 : MistakeRec := mkSessionMistake "二" "に" "two" "three"

/-- C1.  For every correct item, candidate pool and quiz kind, and every pair
of permutation oracles standing for the two shuffles, the options list
returned by `generate_question` contains the correct item's answer value
exactly once, and its length is `min 4 (1 + the number of pool entries whose
answer value differs from the correct answer)`, hence at most 4. -/
theorem generate_question_options (correct_content : Row) (all_content : List Row)
    (quiz_type : String) (s1 s2 : List String → List String)
    (h1 : ∀ l, (s1 l).Perm l) (h2 : ∀ l, (s2 l).Perm l)
    (_hqt : quiz_type = "jlpt" ∨ quiz_type = "character") :
    ((generate_question correct_content all_content quiz_type s1 s2).2).count
        (correctAnswer correct_content quiz_type) = 1
    ∧ ((generate_question correct_content all_content quiz_type s1 s2).2).length
        = min 4 (1 + (all_content.filter
            (fun c => dget c (optionType quiz_type)
              != correctAnswer correct_content quiz_type)).length)
    ∧ ((generate_question correct_content all_content quiz_type s1 s2).2).length ≤ 4 := by
  set ans := correctAnswer correct_content quiz_type with hans
  set opt := optionType quiz_type with hopt
  have hw : wrongOptions all_content opt ans
      = (all_content.filter (fun c => dget c opt != ans)).map (fun c => dget c opt) := rfl
  have hnotmem : ans ∉ wrongOptions all_content opt ans := by
    rw [hw]
    intro hmem
    rcases List.mem_map.mp hmem with ⟨c, hc, hceq⟩
    rcases List.mem_filter.mp hc with ⟨_, hne⟩
    rw [hceq] at hne
    simp at hne
  have hlen : (wrongOptions all_content opt ans).length
      = (all_content.filter (fun c => dget c opt != ans)).length := by
    rw [hw, List.length_map]
  refine ⟨?_, ?_, ?_⟩
  · show (s2 ([ans] ++ lastThree (s1 (wrongOptions all_content opt ans)))).count ans = 1
    rw [(h2 _).count_eq, List.count_append]
    have hdrop : (lastThree (s1 (wrongOptions all_content opt ans))).count ans = 0 := by
      rw [List.count_eq_zero]
      intro hmem
      exact hnotmem ((h1 _).mem_iff.mp (List.drop_subset _ _ hmem))
    rw [hdrop]
    simp [List.count_singleton]
  · show (s2 ([ans] ++ lastThree (s1 (wrongOptions all_content opt ans)))).length
        = min 4 (1 + (all_content.filter (fun c => dget c opt != ans)).length)
    rw [(h2 _).length_eq, List.length_append, List.length_singleton]
    unfold lastThree
    rw [List.length_drop, (h1 _).length_eq, hlen]
    omega
  · show (s2 ([ans] ++ lastThree (s1 (wrongOptions all_content opt ans)))).length ≤ 4
    rw [(h2 _).length_eq, List.length_append, List.length_singleton]
    unfold lastThree
    rw [List.length_drop]
    omega

/-- Concrete instantiation of `generate_question_options`: a two-row pool,
identity shuffles, the `jlpt` kind. -/
theorem generate_question_options_witness :
    (∀ l : List String, (id l).Perm l)
    ∧ (("jlpt" : String) = "jlpt" ∨ ("jlpt" : String) = "character")
    ∧ ((generate_question (vocabRow "犬" "いぬ" "dog")
          [vocabRow "犬" "いぬ" "dog", vocabRow "猫" "ねこ" "cat"] "jlpt" id id).2).count
        (correctAnswer (vocabRow "犬" "いぬ" "dog") "jlpt") = 1
    ∧ ((generate_question (vocabRow "犬" "いぬ" "dog")
          [vocabRow "犬" "いぬ" "dog", vocabRow "猫" "ねこ" "cat"] "jlpt" id id).2).length
        = min 4 (1 + ([vocabRow "犬" "いぬ" "dog", vocabRow "猫" "ねこ" "cat"].filter
            (fun c => dget c (optionType "jlpt")
              != correctAnswer (vocabRow "犬" "いぬ" "dog") "jlpt")).length)
    ∧ ((generate_question (vocabRow "犬" "いぬ" "dog")
          [vocabRow "犬" "いぬ" "dog", vocabRow "猫" "ねこ" "cat"] "jlpt" id id).2).length ≤ 4 := by
  refine ⟨fun l => List.Perm.refl l, Or.inl rfl, ?_⟩
  exact generate_question_options (vocabRow "犬" "いぬ" "dog")
    [vocabRow "犬" "いぬ" "dog", vocabRow "猫" "ねこ" "cat"] "jlpt" id id
    (fun l => List.Perm.refl l) (fun l => List.Perm.refl l) (Or.inl rfl)

/-- No record of `store` matches the `(word, kana)` key, so the
`mistake_updated` flag stays false. -/
theorem mistake_exists_eq_false {word kana : String} {store : List MistakeRec}
    (h : ∀ m ∈ store, ¬(m.word = word ∧ m.kana = kana)) :
    mistake_exists word kana store = false := by
  simp only [mistake_exists, List.any_eq_false, Bool.and_eq_true, beq_iff_eq]
  exact h

/-- Some record of `store` matches the `(word, kana)` key, so the
`mistake_updated` flag becomes true. -/
theorem mistake_exists_eq_true {word kana : String} {store : List MistakeRec}
    {m : MistakeRec} (hm : m ∈ store) (hw : m.word = word) (hk : m.kana = kana) :
    mistake_exists word kana store = true := by
  simp only [mistake_exists, List.any_eq_true, Bool.and_eq_true, beq_iff_eq]
  exact ⟨m, hm, hw, hk⟩

/-- `update_first` walks past non-matching records and bumps exactly the
first matching one, leaving everything after it untouched. -/
theorem update_first_append {word kana : String} (c u now : String)
    (pre : List MistakeRec) (m : MistakeRec) (post : List MistakeRec)
    (hpre : ∀ m' ∈ pre, ¬(m'.word = word ∧ m'.kana = kana))
    (hw : m.word = word) (hk : m.kana = kana) :
    update_first word kana c u now (pre ++ m :: post)
      = pre ++
        { m with
          correct_answer := c, user_answer := u,
          mistake_count := m.mistake_count + 1, last_mistake_date := now } :: post := by
  induction pre with
  | nil => simp [update_first, hw, hk]
  | cons a pre ih =>
    have ha := hpre a (by simp)
    simp only [List.cons_append, update_first, if_neg ha, List.append_eq]
    rw [ih (fun m' hm' => hpre m' (by simp [hm']))]

/-- A record whose key differs from the upserted one survives `add_mistake`
unchanged. -/
theorem mem_add_mistake_of_ne {word kana : String} {r : MistakeRec}
    {store : List MistakeRec} (c u now : String) (hr : r ∈ store)
    (hne : ¬(r.word = word ∧ r.kana = kana)) :
    r ∈ add_mistake store word kana c u now := by
  unfold add_mistake
  by_cases hex : mistake_exists word kana store
  · rw [if_pos hex]
    clear hex
    induction store with
    | nil => cases hr
    | cons a rest ih =>
      by_cases ha : a.word = word ∧ a.kana = kana
      · rw [update_first, if_pos ha]
        rcases List.mem_cons.mp hr with rfl | hr'
        · exact absurd ha hne
        · exact List.mem_cons_of_mem _ hr'
      · rw [update_first, if_neg ha]
        rcases List.mem_cons.mp hr with rfl | hr'
        · exact List.mem_cons_self _ _
        · exact List.mem_cons_of_mem _ (ih hr')
  · rw [if_neg hex]
    exact List.mem_append_left _ hr

/-- Every record of the store produced by `add_mistake` either was already
present or carries the upserted `(word, kana)` key. -/
theorem key_of_mem_add_mistake {word kana : String} {r : MistakeRec}
    {store : List MistakeRec} {c u now : String}
    (hr : r ∈ add_mistake store word kana c u now) :
    r ∈ store ∨ (r.word = word ∧ r.kana = kana) := by
  unfold add_mistake at hr
  by_cases hex : mistake_exists word kana store
  · rw [if_pos hex] at hr
    clear hex
    induction store with
    | nil => cases hr
    | cons a rest ih =>
      by_cases ha : a.word = word ∧ a.kana = kana
      · rw [update_first, if_pos ha] at hr
        rcases List.mem_cons.mp hr with rfl | hr'
        · exact Or.inr ⟨ha.1, ha.2⟩
        · exact Or.inl (List.mem_cons_of_mem _ hr')
      · rw [update_first, if_neg ha] at hr
        rcases List.mem_cons.mp hr with rfl | hr'
        · exact Or.inl (List.mem_cons_self _ _)
        · rcases ih hr' with h | h
          · exact Or.inl (List.mem_cons_of_mem _ h)
          · exact Or.inr h
  · rw [if_neg hex] at hr
    rcases List.mem_append.mp hr with h | h
    · exact Or.inl h
    · rcases List.mem_singleton.mp h with rfl
      exact Or.inr ⟨rfl, rfl⟩

/-- `add_mistake` on a store with no record carrying the `(word, kana)` key
appends a fresh `mistake_count = 1` record. -/
theorem add_mistake_no_match (word kana correct_answer user_answer now : String)
    (store : List MistakeRec)
    (h : ∀ m ∈ store, ¬(m.word = word ∧ m.kana = kana)) :
    add_mistake store word kana correct_answer user_answer now
      = store ++ [⟨word, kana, correct_answer, user_answer, 1, now⟩] := by
  unfold add_mistake
  rw [mistake_exists_eq_false h]
  simp

/-- `add_mistake` on a store splitting as `pre ++ m :: post` with `m` the
first record carrying the `(word, kana)` key overwrites exactly `m`. -/
theorem add_mistake_first_match (word kana correct_answer user_answer now : String)
    (pre : List MistakeRec) (m : MistakeRec) (post : List MistakeRec)
    (hpre : ∀ m' ∈ pre, ¬(m'.word = word ∧ m'.kana = kana))
    (hw : m.word = word) (hk : m.kana = kana) :
    add_mistake (pre ++ m :: post) word kana correct_answer user_answer now
      = pre ++
        { m with
          correct_answer := correct_answer, user_answer := user_answer,
          mistake_count := m.mistake_count + 1, last_mistake_date := now } :: post := by
  unfold add_mistake
  rw [mistake_exists_eq_true (List.mem_append_right _ (List.mem_cons_self _ _)) hw hk]
  simp only [if_true]
  exact update_first_append correct_answer user_answer now pre m post hpre hw hk

/-- C4.  Upsert law of `add_mistake`: when no record carries the
`(word, kana)` key, a fresh record with `mistake_count = 1` is appended;
when the store splits as `pre ++ m :: post` with `m` the first record
carrying the key, exactly `m` is overwritten (answers and date replaced,
`mistake_count` incremented by one) and no row is added or removed. -/
theorem add_mistake_upsert (word kana correct_answer user_answer now : String) :
    (∀ store : List MistakeRec,
      (∀ m ∈ store, ¬(m.word = word ∧ m.kana = kana)) →
      add_mistake store word kana correct_answer user_answer now
        = store ++ [⟨word, kana, correct_answer, user_answer, 1, now⟩])
    ∧ (∀ (pre : List MistakeRec) (m : MistakeRec) (post : List MistakeRec),
      (∀ m' ∈ pre, ¬(m'.word = word ∧ m'.kana = kana)) →
      m.word = word → m.kana = kana →
      add_mistake (pre ++ m :: post) word kana correct_answer user_answer now
        = pre ++
          { m with
            correct_answer := correct_answer, user_answer := user_answer,
            mistake_count := m.mistake_count + 1, last_mistake_date := now } :: post) :=
  ⟨add_mistake_no_match word kana correct_answer user_answer now,
    add_mistake_first_match word kana correct_answer user_answer now⟩

/-- Concrete instantiation of `add_mistake_upsert`: inserting a brand-new
key appends a count-1 record; re-adding the same key bumps the count from 3
to 4 and overwrites the other fields. -/
theorem add_mistake_upsert_witness :
    ((∀ m ∈ ([] : List MistakeRec), ¬(m.word = "犬" ∧ m.kana = "いぬ"))
      ∧ add_mistake [] "犬" "いぬ" "dog" "cat" "t0"
          = [⟨"犬", "いぬ", "dog", "cat", 1, "t0"⟩])
    ∧ ((⟨"犬", "いぬ", "dog", "fish", 3, "d"⟩ : MistakeRec).word = "犬"
      ∧ add_mistake [⟨"犬", "いぬ", "dog", "fish", 3, "d"⟩] "犬" "いぬ" "dog" "cat" "t1"
          = [⟨"犬", "いぬ", "dog", "cat", 4, "t1"⟩]) := by
  refine ⟨⟨by simp, ?_⟩, rfl, ?_⟩
  · exact (add_mistake_upsert "犬" "いぬ" "dog" "cat" "t0").1 [] (by simp)
  · have h := (add_mistake_upsert "犬" "いぬ" "dog" "cat" "t1").2 []
      ⟨"犬", "いぬ", "dog", "fish", 3, "d"⟩ [] (by simp) rfl rfl
    simpa using h

/-- C10.  `remove_mistake` deletes every record whose `word` equals the
argument, ignoring `kana` entirely — any record with a matching `word` is
gone from the result — and its reported Boolean is `false` on every input,
because the source compares the unfiltered list's length with itself. -/
theorem remove_mistake_spec (store : List MistakeRec) (word : String) :
    (remove_mistake store word).1 = store.filter (fun m => m.word != word)
    ∧ (∀ m ∈ store, m.word = word → m ∉ (remove_mistake store word).1)
    ∧ (remove_mistake store word).2 = false := by
  have hfilter : removeLoop word store = store.filter (fun m => m.word != word) := by
    induction store with
    | nil => rfl
    | cons a rest ih =>
      by_cases h : a.word = word
      · simp [removeLoop, List.filter_cons, h, ih]
      · simp [removeLoop, List.filter_cons, h, ih]
  refine ⟨hfilter, ?_, ?_⟩
  · intro m hm hw
    show m ∉ removeLoop word store
    rw [hfilter]
    simp [List.mem_filter, hw]
  · show decide (store.length < store.length) = false
    simp

/-- Concrete instantiation of `remove_mistake_spec`: two records share the
word "犬" with different kana; one call removes both yet reports `false`. -/
theorem remove_mistake_spec_witness :
    (remove_mistake [⟨"犬", "いぬ", "dog", "cat", 1, "t"⟩,
        ⟨"犬", "けん", "dog", "fish", 2, "t"⟩] "犬").1
      = [⟨"犬", "いぬ", "dog", "cat", 1, "t"⟩,
        ⟨"犬", "けん", "dog", "fish", 2, "t"⟩].filter (fun m => m.word != "犬")
    ∧ (∀ m ∈ [(⟨"犬", "いぬ", "dog", "cat", 1, "t"⟩ : MistakeRec),
        ⟨"犬", "けん", "dog", "fish", 2, "t"⟩], m.word = "犬" →
        m ∉ (remove_mistake [⟨"犬", "いぬ", "dog", "cat", 1, "t"⟩,
          ⟨"犬", "けん", "dog", "fish", 2, "t"⟩] "犬").1)
    ∧ (remove_mistake [⟨"犬", "いぬ", "dog", "cat", 1, "t"⟩,
        ⟨"犬", "けん", "dog", "fish", 2, "t"⟩] "犬").2 = false :=
  remove_mistake_spec [⟨"犬", "いぬ", "dog", "cat", 1, "t"⟩,
    ⟨"犬", "けん", "dog", "fish", 2, "t"⟩] "犬"

/-- C5.  Idempotence of mastering: calling `add_mastered_vocab` a second
time with the same `(level, kanji)` returns the mastery mapping of the
first call unchanged (and reports `False`), so every level's mastered set
keeps its size. -/
theorem add_mastered_vocab_idempotent (mastery : Mastery) (level kanji : String) :
    (add_mastered_vocab (add_mastered_vocab mastery level kanji).1 level kanji).1
      = (add_mastered_vocab mastery level kanji).1
    ∧ (add_mastered_vocab (add_mastered_vocab mastery level kanji).1 level kanji).2
      = false
    ∧ ∀ l, ((add_mastered_vocab (add_mastered_vocab mastery level kanji).1 level kanji).1 l).card
        = ((add_mastered_vocab mastery level kanji).1 l).card := by
  unfold add_mastered_vocab
  by_cases h : kanji ∈ mastery level
  · simp [h]
  · simp [h]

/-- C2 (violated by the code).  When the loaded pool has fewer than the 10
items the fixed-length quiz needs, both quiz initializations reach
`random.sample(pool, 10)` with no guard, so the chosen sample is the
uncaught `ValueError` — not a graceful, user-facing failure. -/
theorem quiz_init_unguarded_sampling (pick : List Row → List Row)
    (pool : List Row) (h : pool.length < 10) :
    run_jlpt_quiz_init pick pool
        = Except.error "ValueError: Sample larger than population or is negative"
    ∧ run_character_quiz_init pick pool
        = Except.error "ValueError: Sample larger than population or is negative" := by
  unfold run_jlpt_quiz_init run_character_quiz_init python_sample
  rw [if_neg (by omega)]
  exact ⟨rfl, rfl⟩

/-- Concrete instantiation of `quiz_init_unguarded_sampling`: a 3-item pool
makes both sessions fail with the uncaught `ValueError`. -/
theorem quiz_init_unguarded_sampling_witness :
    ([vocabRow "一" "いち" "one", vocabRow "二" "に" "two",
        vocabRow "三" "さん" "three"].length < 10)
    ∧ run_jlpt_quiz_init id [vocabRow "一" "いち" "one", vocabRow "二" "に" "two",
        vocabRow "三" "さん" "three"]
      = Except.error "ValueError: Sample larger than population or is negative"
    ∧ run_character_quiz_init id [vocabRow "一" "いち" "one", vocabRow "二" "に" "two",
        vocabRow "三" "さん" "three"]
      = Except.error "ValueError: Sample larger than population or is negative" :=
  ⟨by decide,
    quiz_init_unguarded_sampling id [vocabRow "一" "いち" "one",
      vocabRow "二" "に" "two", vocabRow "三" "さん" "three"] (by decide)⟩

/-- C9 (violated by the code for three of the four loaders).  At a missing
file: `load_jlpt_vocab` and `load_characters` print a notice but return
Python `None` rather than a collection; `load_mistakes` also returns `None`
and creates no default file (its auto-creation is an unimplemented `TODO`),
so `get_mistake_count` — run on every main-menu iteration — crashes on
`len(None)`; only `load_mastered_vocabs` returns the default collection and
auto-creates its file.  (The documented empty list for an unknown level is
also recorded.) -/
theorem load_missing_file_behaviour :
    load_jlpt_vocab "N5" none = none
    ∧ load_characters none = none
    ∧ (load_mistakes none).1 = none
    ∧ (load_mistakes none).2 = false
    ∧ get_mistake_count none = none
    ∧ (load_mastered_vocabs none).2 = true
    ∧ (∀ l, (load_mastered_vocabs none).1 l = ∅)
    ∧ load_jlpt_vocab "XY" none = some [] := by
  refine ⟨?_, rfl, rfl, rfl, rfl, rfl, fun l => rfl, ?_⟩
  · unfold load_jlpt_vocab
    rw [if_neg (by simp)]
  · unfold load_jlpt_vocab
    rw [if_pos (by simp)]

/-- C3 counterexample.  A concrete 11-entry character pool and a 10-item
sample drawn from it: the question generated by the character-quiz loop (on
the sample) differs from the one generated against the full character pool
under the same shuffle oracles, so the character quiz does NOT use the full
pool as the distractor source. -/
theorem character_quiz_pool_counterexample :
    (character_quiz_questions sampleCharacterPool (fun _ l => l) (fun _ l => l)).getD 0 ("", [])
      ≠ generate_question (sampleCharacterPool.getD 0 []) fullCharacterPool "character"
          (fun l => l) (fun l => l) := by
  decide

/-- C3 as amended.  Both quiz kinds pass the session's own 10-item sample
`quiz_content` as the distractor pool: for every index in range, question
`i` of either quiz loop equals `generate_question` applied to
`quiz_content` itself (with that question's shuffle oracles); there is no
jlpt/character asymmetry. -/
theorem quiz_question_pool_is_sample (quiz_content : List Row)
    (s1 s2 : Nat → List String → List String) (i : Nat)
    (hi : i < quiz_content.length) :
    (jlpt_quiz_questions quiz_content s1 s2).getD i ("", [])
        = generate_question (quiz_content.getD i []) quiz_content "jlpt" (s1 i) (s2 i)
    ∧ (character_quiz_questions quiz_content s1 s2).getD i ("", [])
        = generate_question (quiz_content.getD i []) quiz_content "character" (s1 i) (s2 i) := by
  have key : ∀ quiz_type : String,
      (((List.range quiz_content.length).map fun j =>
        generate_question (quiz_content.getD j []) quiz_content quiz_type (s1 j) (s2 j)).getD
          i ("", []))
        = generate_question (quiz_content.getD i []) quiz_content quiz_type (s1 i) (s2 i) := by
    intro quiz_type
    rw [List.getD_eq_getElem?_getD, List.getElem?_map, List.getElem?_range hi]
    rfl
  exact ⟨key "jlpt", key "character"⟩

/-- Concrete instantiation of `quiz_question_pool_is_sample` at the first
question of the sample pool. -/
theorem quiz_question_pool_is_sample_witness :
    (0 < sampleCharacterPool.length)
    ∧ (jlpt_quiz_questions sampleCharacterPool (fun _ l => l) (fun _ l => l)).getD 0 ("", [])
        = generate_question (sampleCharacterPool.getD 0 []) sampleCharacterPool "jlpt"
            ((fun _ l => l : Nat → List String → List String) 0)
            ((fun _ l => l : Nat → List String → List String) 0)
    ∧ (character_quiz_questions sampleCharacterPool (fun _ l => l) (fun _ l => l)).getD 0 ("", [])
        = generate_question (sampleCharacterPool.getD 0 []) sampleCharacterPool "character"
            ((fun _ l => l : Nat → List String → List String) 0)
            ((fun _ l => l : Nat → List String → List String) 0) :=
  ⟨by decide,
    quiz_question_pool_is_sample sampleCharacterPool (fun _ l => l) (fun _ l => l) 0 (by decide)⟩

/-- Key matching is symmetric. -/
theorem keyMatches_comm (a b : MistakeRec) : keyMatches a b = keyMatches b a := by
  rw [Bool.eq_iff_iff]
  simp only [keyMatches, Bool.and_eq_true, beq_iff_eq]
  constructor
  · rintro ⟨h1, h2⟩; exact ⟨h1.symm, h2.symm⟩
  · rintro ⟨h1, h2⟩; exact ⟨h1.symm, h2.symm⟩

/-- Unfolding of a failed key match into its propositional form. -/
theorem keyMatches_eq_false_iff (a b : MistakeRec) :
    keyMatches a b = false ↔ ¬(a.word = b.word ∧ a.kana = b.kana) := by
  rw [← Bool.not_eq_true]
  simp [keyMatches]

/-- Loop invariant for a confirmed quit: from any loop state, if the
pending input holds no confirmed quit until one is issued, the loop returns
at that quit with the early flag set and a remaining list ending in the
tail of the mistake list from the question then being asked — each answer
before the quit advanced `q_no` by exactly one and a cancelled quit left it
alone. -/
theorem review_loop_quit_confirmed (all_content : List Row)
    (s1 s2 : Nat → List String → List String) (ml : List MistakeRec)
    (rest : List ReviewAction) :
    ∀ (acts0 : List ReviewAction) (q c : Nat) (r : List MistakeRec) (t : Nat),
      (∀ a ∈ acts0, a ≠ ReviewAction.quit true) →
      q + acts0.countP ReviewAction.isAnswer < ml.length →
      ∃ c2 pre,
        review_loop all_content s1 s2 ml q c r t
            (acts0 ++ ReviewAction.quit true :: rest)
          = some (c2, (r ++ pre) ++ ml.drop (q + acts0.countP ReviewAction.isAnswer),
              true) := by
  intro acts0
  induction acts0 with
  | nil =>
    intro q c r t _ hlen
    simp only [List.countP_nil, Nat.add_zero] at hlen ⊢
    refine ⟨c, [], ?_⟩
    simp only [List.append_nil, List.nil_append]
    show review_loop all_content s1 s2 ml q c r t (ReviewAction.quit true :: rest)
        = some (c, r ++ ml.drop q, true)
    simp only [review_loop]
    rw [if_pos hlen]
  | cons a acts0 ih =>
    intro q c r t hnq hlen
    have hq : q < ml.length := by
      have h0 : 0 ≤ (a :: acts0).countP ReviewAction.isAnswer := Nat.zero_le _
      omega
    have hnq' : ∀ x ∈ acts0, x ≠ ReviewAction.quit true :=
      fun x hx => hnq x (List.mem_cons_of_mem _ hx)
    rcases a with ch | b
    · have hcp : (ReviewAction.answer ch :: acts0).countP ReviewAction.isAnswer
          = acts0.countP ReviewAction.isAnswer + 1 := by
        simp [List.countP_cons, ReviewAction.isAnswer]
      rw [hcp] at hlen ⊢
      have hidx : q + (acts0.countP ReviewAction.isAnswer + 1)
          = (q + 1) + acts0.countP ReviewAction.isAnswer := by omega
      rw [hidx]
      simp only [List.cons_append, review_loop]
      rw [if_pos hq]
      split
      · obtain ⟨c2, pre, hrec⟩ := ih (q + 1) (c + 1) r (t + 1) hnq' (by omega)
        exact ⟨c2, pre, hrec⟩
      · obtain ⟨c2, pre, hrec⟩ := ih (q + 1) c (r ++ [ml.getD q emptyMistake]) (t + 1)
          hnq' (by omega)
        exact ⟨c2, [ml.getD q emptyMistake] ++ pre, by
          simpa [List.append_assoc] using hrec⟩
    · cases b
      · have hcp : (ReviewAction.quit false :: acts0).countP ReviewAction.isAnswer
            = acts0.countP ReviewAction.isAnswer := by
          simp [List.countP_cons, ReviewAction.isAnswer]
        rw [hcp] at hlen ⊢
        simp only [List.cons_append, review_loop]
        rw [if_pos hq]
        exact ih q c r (t + 1) hnq' hlen
      · exact absurd rfl (hnq (ReviewAction.quit true) (List.mem_cons_self _ _))

/-- C6.  Quit with confirmation during a mistake review: when the user's
inputs answer (or cancel quits) for a while and then issue a confirmed quit
while question `j + 1` (1-based, `j` answers given so far) of the shuffled
list is being asked, `run_mistake_review` reports `user_quit_early = true`
and a remaining list that ends with every mistake of the shuffled list from
the current question (inclusive) through the last — answered or not yet
reached. -/
theorem run_mistake_review_quit_confirmed (all_content : List Row)
    (shuffle0 : List MistakeRec → List MistakeRec)
    (s1 s2 : Nat → List String → List String) (mistakes_list : List MistakeRec)
    (acts0 rest : List ReviewAction)
    (hnq : ∀ a ∈ acts0, a ≠ ReviewAction.quit true)
    (hlen : acts0.countP ReviewAction.isAnswer < (shuffle0 mistakes_list).length) :
    ∃ cleared pre,
      run_mistake_review all_content shuffle0 s1 s2 mistakes_list
          (acts0 ++ ReviewAction.quit true :: rest)
        = some (cleared,
            pre ++ (shuffle0 mistakes_list).drop (acts0.countP ReviewAction.isAnswer),
            true) := by
  obtain ⟨c2, pre, h⟩ := review_loop_quit_confirmed all_content s1 s2
    (shuffle0 mistakes_list) rest acts0 0 0 [] 0 hnq (by simpa using hlen)
  exact ⟨c2, pre, by simpa using h⟩

/-- Concrete instantiation of `run_mistake_review_quit_confirmed`: in a
two-mistake review the user answers question 1 (wrongly) and then quits
with confirmation on question 2; the remaining list ends with the tail from
question 2 on. -/
theorem run_mistake_review_quit_confirmed_witness :
    (∀ a ∈ ([ReviewAction.answer 1] : List ReviewAction), a ≠ ReviewAction.quit true)
    ∧ (([ReviewAction.answer 1] : List ReviewAction).countP ReviewAction.isAnswer
        < ((fun l => l) [catRec, birdRec] : List MistakeRec).length)
    ∧ ∃ cleared pre,
        run_mistake_review [] (fun l => l) (fun _ l => l) (fun _ l => l)
            [catRec, birdRec]
            ([ReviewAction.answer 1] ++ ReviewAction.quit true :: [])
          = some (cleared,
              pre ++ ((fun l => l) [catRec, birdRec] : List MistakeRec).drop
                (([ReviewAction.answer 1] : List ReviewAction).countP
                  ReviewAction.isAnswer),
              true) :=
  ⟨by decide, by decide,
    run_mistake_review_quit_confirmed [] (fun l => l) (fun _ l => l) (fun _ l => l)
      [catRec, birdRec] [ReviewAction.answer 1] [] (by decide) (by decide)⟩

/-- Folding `add_mistake` over entries whose keys collide neither with the
accumulator store nor with each other appends one fresh count-1 record per
entry, in order. -/
theorem addAll_of_fresh_keys (now : String) :
    ∀ (entries store : List MistakeRec),
      (∀ a ∈ store, ∀ b ∈ entries, keyMatches b a = false) →
      entries.Pairwise (fun a b => keyMatches a b = false) →
      addAll store entries now
        = store ++ entries.map
            (fun m => { m with mistake_count := 1, last_mistake_date := now }) := by
  intro entries
  induction entries with
  | nil => intro store _ _; simp [addAll]
  | cons e entries ih =>
    intro store hfresh hpair
    obtain ⟨hhead, htail⟩ := List.pairwise_cons.mp hpair
    have hstep : add_mistake store e.word e.kana e.correct_answer e.user_answer now
        = store ++ [⟨e.word, e.kana, e.correct_answer, e.user_answer, 1, now⟩] := by
      refine add_mistake_no_match e.word e.kana e.correct_answer e.user_answer now
        store ?_
      intro m hm hkey
      have h := hfresh m hm e (List.mem_cons_self _ _)
      rw [keyMatches_eq_false_iff] at h
      exact h ⟨hkey.1.symm, hkey.2.symm⟩
    have hrest : addAll (store ++ [⟨e.word, e.kana, e.correct_answer, e.user_answer, 1, now⟩])
        entries now
        = (store ++ [⟨e.word, e.kana, e.correct_answer, e.user_answer, 1, now⟩])
          ++ entries.map
            (fun m => { m with mistake_count := 1, last_mistake_date := now }) := by
      refine ih _ ?_ htail
      intro a ha b hb
      rcases List.mem_append.mp ha with ha' | ha'
      · exact hfresh a ha' b (List.mem_cons_of_mem _ hb)
      · rcases List.mem_singleton.mp ha' with rfl
        have h := hhead b hb
        rw [keyMatches_comm] at h
        exact h
    show addAll (add_mistake store e.word e.kana e.correct_answer e.user_answer now)
        entries now = _
    rw [hstep, hrest, List.map_cons, List.append_assoc, List.singleton_append]

/-- C7 as amended.  When the standalone mistake practice persists a review
that did not quit early, the store afterwards holds exactly the remaining
mistakes in order (no duplication for pairwise-distinct keys), but each
record's `mistake_count` is reset to 1 and its `last_mistake_date` to the
save time: prior counts are NOT preserved, because the store is cleared and
the entries re-added through the insert-or-increment operation. -/
theorem run_mistake_practice_save_spec (remaining : List MistakeRec) (now : String)
    (hdist : remaining.Pairwise (fun a b => keyMatches a b = false)) :
    run_mistake_practice_save remaining now
      = remaining.map (fun m => { m with mistake_count := 1, last_mistake_date := now }) := by
  have h := addAll_of_fresh_keys now remaining reset_mistakes
    (by intro a ha; cases ha) hdist
  simpa [run_mistake_practice_save, reset_mistakes] using h

/-- C7 counterexample.  A single remaining mistake whose stored
`mistake_count` was 2 survives a (non-early-quit) standalone review and is
then persisted with `mistake_count` 1: the prior count is not kept, so the
record is not persisted verbatim. -/
theorem run_mistake_practice_count_not_preserved :
    run_mistake_review [] (fun l => l) (fun _ l => l) (fun _ l => l) [catRec]
        [ReviewAction.answer 1]
      = some (0, [catRec], false)
    ∧ catRec.mistake_count = 2
    ∧ (run_mistake_practice_save [catRec] "t1").map (fun m => m.mistake_count) = [1]
    ∧ ¬((run_mistake_practice_save [catRec] "t1").map (fun m => m.mistake_count)
        = [catRec].map (fun m => m.mistake_count)) := by
  refine ⟨by decide, by decide, by decide, by decide⟩

/-- Concrete instantiation of `run_mistake_practice_save_spec` on two
distinct-keyed remaining mistakes. -/
theorem run_mistake_practice_save_spec_witness :
    ([catRec, birdRec] : List MistakeRec).Pairwise (fun a b => keyMatches a b = false)
    ∧ run_mistake_practice_save [catRec, birdRec] "t2"
      = [catRec, birdRec].map
          (fun m => { m with mistake_count := 1, last_mistake_date := "t2" }) :=
  ⟨by decide, run_mistake_practice_save_spec [catRec, birdRec] "t2" (by decide)⟩

/-- A store record whose key collides with no folded entry survives
`addAll`. -/
theorem mem_addAll_of_fresh (now : String) :
    ∀ (entries store : List MistakeRec) (r : MistakeRec),
      r ∈ store → (∀ e ∈ entries, keyMatches e r = false) →
      r ∈ addAll store entries now := by
  intro entries
  induction entries with
  | nil => intro store r hr _; exact hr
  | cons e entries ih =>
    intro store r hr hfresh
    show r ∈ addAll (add_mistake store e.word e.kana e.correct_answer e.user_answer now)
        entries now
    refine ih _ r ?_ (fun e' he' => hfresh e' (List.mem_cons_of_mem _ he'))
    refine mem_add_mistake_of_ne _ _ _ hr ?_
    have h := hfresh e (List.mem_cons_self _ _)
    rw [keyMatches_eq_false_iff] at h
    exact fun hkey => h ⟨hkey.1.symm, hkey.2.symm⟩

/-- Every record of an `addAll` result carries a key already present in the
store or the key of one of the folded entries: nothing else is ever
written. -/
theorem key_of_mem_addAll (now : String) :
    ∀ (entries store : List MistakeRec) (r : MistakeRec),
      r ∈ addAll store entries now →
      (∃ s ∈ store, r.word = s.word ∧ r.kana = s.kana)
      ∨ (∃ e ∈ entries, r.word = e.word ∧ r.kana = e.kana) := by
  intro entries
  induction entries with
  | nil => intro store r hr; exact Or.inl ⟨r, hr, rfl, rfl⟩
  | cons e entries ih =>
    intro store r hr
    rcases ih _ r hr with ⟨s, hs, hk1, hk2⟩ | ⟨e', he', hk⟩
    · rcases key_of_mem_add_mistake hs with hs' | hs'
      · exact Or.inl ⟨s, hs', hk1, hk2⟩
      · exact Or.inr ⟨e, List.mem_cons_self _ _, hk1.trans hs'.1, hk2.trans hs'.2⟩
    · exact Or.inr ⟨e', List.mem_cons_of_mem _ he', hk⟩

/-- C8 as amended.  The inline persistence after a quiz's mistake review:
on a normal review end only the remaining (`updated`) mistakes are upserted
— store records whose keys collide with no remaining mistake survive
unchanged, and every record of the new store carries a key from the old
store or from a remaining mistake, so cleared mistakes with fresh keys are
never written; on a confirmed early quit, however, the code upserts every
collected mistake, cleared ones included. -/
theorem jlpt_inline_persist_spec (store mistakes updated : List MistakeRec)
    (now : String) (hne : mistakes ≠ []) :
    jlpt_post_quiz_mistake_persist store mistakes true updated false now
        = addAll store updated now
    ∧ (∀ r ∈ store, (∀ e ∈ updated, keyMatches e r = false) →
        r ∈ jlpt_post_quiz_mistake_persist store mistakes true updated false now)
    ∧ (∀ r ∈ jlpt_post_quiz_mistake_persist store mistakes true updated false now,
        (∃ s ∈ store, r.word = s.word ∧ r.kana = s.kana)
        ∨ (∃ e ∈ updated, r.word = e.word ∧ r.kana = e.kana))
    ∧ jlpt_post_quiz_mistake_persist store mistakes true updated true now
        = addAll store mistakes now := by
  have hdef : jlpt_post_quiz_mistake_persist store mistakes true updated false now
      = addAll store updated now := by
    simp [jlpt_post_quiz_mistake_persist, hne]
  have hdef2 : jlpt_post_quiz_mistake_persist store mistakes true updated true now
      = addAll store mistakes now := by
    simp [jlpt_post_quiz_mistake_persist, hne]
  refine ⟨hdef, ?_, ?_, hdef2⟩
  · intro r hr hfresh
    rw [hdef]
    exact mem_addAll_of_fresh now updated store r hr hfresh
  · intro r hr
    rw [hdef] at hr
    exact key_of_mem_addAll now updated store r hr

/-- C8 counterexample.  A two-mistake inline review in which the first
mistake is cleared and the review is then quit with confirmation: the
review returns `remaining = [sessionM2]` and the early flag, yet the
persistence path writes the cleared first mistake into the store as well. -/
theorem jlpt_inline_persist_counterexample :
    run_mistake_review [] (fun l => l) (fun _ l => l) (fun _ l => l)
        [sessionM1, sessionM2] [ReviewAction.answer 0, ReviewAction.quit true]
      = some (1, [sessionM2], true)
    ∧ (jlpt_post_quiz_mistake_persist [] [sessionM1, sessionM2] true [sessionM2]
        true "t3").any (fun r => keyMatches r sessionM1) = true := by
  refine ⟨by decide, by decide⟩

/-- Concrete instantiation of `jlpt_inline_persist_spec` with a one-record
store unrelated to the two session mistakes. -/
theorem jlpt_inline_persist_spec_witness :
    (([sessionM1, sessionM2] : List MistakeRec) ≠ [])
    ∧ (jlpt_post_quiz_mistake_persist [catRec] [sessionM1, sessionM2] true [sessionM2]
          false "t4"
        = addAll [catRec] [sessionM2] "t4")
    ∧ (∀ r ∈ ([catRec] : List MistakeRec),
        (∀ e ∈ ([sessionM2] : List MistakeRec), keyMatches e r = false) →
        r ∈ jlpt_post_quiz_mistake_persist [catRec] [sessionM1, sessionM2] true
          [sessionM2] false "t4")
    ∧ (∀ r ∈ jlpt_post_quiz_mistake_persist [catRec] [sessionM1, sessionM2] true
          [sessionM2] false "t4",
        (∃ s ∈ ([catRec] : List MistakeRec), r.word = s.word ∧ r.kana = s.kana)
        ∨ (∃ e ∈ ([sessionM2] : List MistakeRec), r.word = e.word ∧ r.kana = e.kana))
    ∧ (jlpt_post_quiz_mistake_persist [catRec] [sessionM1, sessionM2] true [sessionM2]
          true "t4"
        = addAll [catRec] [sessionM1, sessionM2] "t4") := by
  refine ⟨by decide, ?_⟩
  have h := jlpt_inline_persist_spec [catRec] [sessionM1, sessionM2] [sessionM2] "t4"
    (by decide)
  exact h

end JapaneseStudy
